import Mathlib

set_option autoImplicit false

namespace Colate

/-! # Shallow embedding of the colate-task retrieval and tool-orchestration core

Definitions are translated from the Python sources:
`src/pdf/extractor.py`, `src/agents/specialized.py`, `src/vectordb/store.py`,
`src/embeddings/engine.py`, `src/rag/pipeline.py`.
-/

/-! ## Python string primitives

`pySlice`, `pyRfind` and `pyStrip` model the Python builtins
`s[a:b]`, `s.rfind(sub, a, b)` and `s.strip()` on strings viewed as
lists of characters.  Slice indices are Python ints: negative values
are offset by the length and the result is clamped into `[0, n]`.
-/

/-- Python whitespace characters as used by `str.strip()` (ASCII part). -/
def pySpace (c : Char) : Bool :=
  c = ' ' || c = '\t' || c = '\n' || c = '\x0b' || c = '\x0c' || c = '\r'

/-- `text.strip()`: remove leading and trailing whitespace. -/
def pyStrip (xs : List Char) : List Char :=
  ((xs.dropWhile pySpace).reverse.dropWhile pySpace).reverse

/-- Normalisation of a Python slice index against a sequence of length `n`:
negative indices count from the end, then the index is clamped into `[0, n]`. -/
def pyNormIdx (a : Int) (n : Nat) : Nat :=
  if a < 0 then ((n : Int) + a).toNat else min a.toNat n

/-- Python slice `xs[a:b]`. -/
def pySlice (xs : List Char) (a b : Int) : List Char :=
  (xs.take (pyNormIdx b xs.length)).drop (pyNormIdx a xs.length)

/-- Does `pat` occur in `xs` starting at position `i`? -/
def matchesAt (xs pat : List Char) (i : Nat) : Bool :=
  (xs.drop i).take pat.length == pat

/-- Python `xs.rfind(pat, a, b)`: the largest `i` with `a' ≤ i`,
`i + pat.length ≤ b'` and a match of `pat` at `i` (indices normalised as for
slices), or `-1` when there is none. -/
def pyRfind (xs pat : List Char) (a b : Int) : Int :=
  let n := xs.length
  let lo := pyNormIdx a n
  let hi := pyNormIdx b n
  let cands := (List.range (n + 1)).filter
    (fun i => decide (lo ≤ i) && decide (i + pat.length ≤ hi) && matchesAt xs pat i)
  match cands.getLast? with
  | some i => (i : Int)
  | none => -1

/-! ## The chunker: `PDFExtractor._split_text`

The Python loop keeps an integer cursor `start` (which, being a Python int,
may go negative) and repeatedly carves `text[start:end]`, preferring to end
at the last `". "` in the window, then at the last `" "`, and advances the
cursor to `end - chunk_overlap`.  We embed the loop with explicit fuel and
record the `(start, end)` pair of every produced segment; `none` means the
fuel was exhausted with the loop still running.
-/

/-- One iteration's computation of `end` from `start`
(the body of the `while` loop before the append). -/
def splitStepEnd (chunk_size : Nat) (text : List Char) (start : Int) : Int :=
  let e : Int := start + chunk_size
  if e < (text.length : Int) then
    let bp := pyRfind text ['.', ' '] start e
    let bp := if bp == -1 || bp ≤ start then pyRfind text [' '] start e else bp
    if bp > start then bp + 1 else e
  else e

/-- The `while start < len(text)` loop of `_split_text`, with fuel.
Returns the list of `(start, end)` boundary pairs of the appended segments,
or `none` if the fuel ran out before the loop condition failed. -/
def splitLoop (chunk_size chunk_overlap : Nat) (text : List Char) :
    Nat → Int → Option (List (Int × Int))
  | 0, start => if start < (text.length : Int) then none else some []
  | fuel + 1, start =>
    if start < (text.length : Int) then
      (splitLoop chunk_size chunk_overlap text fuel
          (splitStepEnd chunk_size text start - chunk_overlap)).map
        (fun rest => (start, splitStepEnd chunk_size text start) :: rest)
    else some []

/-- `PDFExtractor._split_text(text)`: the chunker.  `none` means the loop did
not terminate within `fuel` iterations. -/
def splitText (chunk_size chunk_overlap : Nat) (fuel : Nat) (text : List Char) :
    Option (List (List Char)) :=
  if text.length ≤ chunk_size then
    some (if pyStrip text = [] then [] else [text])
  else
    (splitLoop chunk_size chunk_overlap text fuel 0).map
      (List.map (fun se => pySlice text se.1 se.2))

/-! ## The tool-calling loop: `BaseAgent.process_async`

The loop is embedded with its external collaborators as oracles: `complete`
models the completion service, `parse` models `json.loads` on the tool-call
arguments string (`none` = `JSONDecodeError` raised), and `callTool` models
`mcp_client.call_tool`.  The result records the returned value (or the
escaping exception), the number of completion requests issued, and the
number of tool dispatches performed.
-/

inductive Role where
  | system | user | assistant | tool
deriving DecidableEq, Repr

/-- A tool call as produced by a completion turn: the `arguments` field is
the raw JSON string. -/
structure ToolCall where
  id : String
  name : String
  arguments : String
deriving DecidableEq, Repr

structure Message where
  role : Role
  content : Option String
  toolCalls : List ToolCall := []
  toolCallId : Option String := none
deriving DecidableEq, Repr

/-- A completion response: `content` may be null, `toolCalls` may be empty. -/
structure Response where
  content : Option String
  toolCalls : List ToolCall
deriving DecidableEq, Repr

/-- Parsed JSON tool arguments (a string-to-string mapping suffices here:
the loop only passes them through to the tool provider). -/
abbrev ToolArgs := List (String × String)

/-- The exception escaping the loop body: `json.loads` failing on the given
arguments string. -/
inductive LoopErr where
  | jsonDecode (arguments : String)
deriving DecidableEq, Repr

/-- External collaborators of `BaseAgent.process_async`. `hasClient` is the
truthiness of `self.mcp_client`. -/
structure AgentCtx where
  complete : List Message → Response
  parse : String → Option ToolArgs
  callTool : String → ToolArgs → String
  hasClient : Bool

deriving instance DecidableEq for Except

structure LoopResult where
  result : Except LoopErr (Option String)
  requests : Nat
  dispatches : Nat
deriving DecidableEq, Repr

def systemMsg (p : String) : Message := { role := .system, content := some p }

def userMsg (q : String) : Message := { role := .user, content := some q }

def assistantMsg (r : Response) : Message :=
  { role := .assistant, content := r.content, toolCalls := r.toolCalls }

def toolMsg (id result : String) : Message :=
  { role := .tool, content := some result, toolCallId := some id }

/-- The `for tool_call in message.tool_calls` body: parse each call's
arguments (a parse failure raises immediately), invoke the tool, and append
a tool-role message.  Also counts the dispatches performed. -/
def dispatchCalls (ctx : AgentCtx) :
    List ToolCall → List Message → Except LoopErr (List Message) × Nat
  | [], ms => (.ok ms, 0)
  | tc :: rest, ms =>
    match ctx.parse tc.arguments with
    | none => (.error (.jsonDecode tc.arguments), 0)
    | some args =>
      let r := ctx.callTool tc.name args
      let out := dispatchCalls ctx rest (ms ++ [toolMsg tc.id r])
      (out.1, out.2 + 1)

/-- The `for iteration in range(self.max_iterations)` loop of
`process_async`.  When the response has tool calls and a client is attached,
the assistant message and the tool results are appended and the loop
continues; otherwise the response content is returned.  Falling off the loop
returns the `"Max iterations reached"` sentinel. -/
def loopAux (ctx : AgentCtx) : Nat → List Message → Nat → Nat → LoopResult
  | 0, _, req, disp => ⟨.ok (some "Max iterations reached"), req, disp⟩
  | fuel + 1, ms, req, disp =>
    let resp := ctx.complete ms
    if (!resp.toolCalls.isEmpty) && ctx.hasClient then
      match dispatchCalls ctx resp.toolCalls (ms ++ [assistantMsg resp]) with
      | (.error e, d) => ⟨.error e, req + 1, disp + d⟩
      | (.ok ms2, d) => loopAux ctx fuel ms2 (req + 1) (disp + d)
    else ⟨.ok resp.content, req + 1, disp⟩

/-- `self.max_iterations = 10` in `BaseAgent.__init__`. -/
def baseAgentMaxIterations : Nat := 10

/-- `BaseAgent.process_async(query)`. -/
def processAsync (ctx : AgentCtx) (sysPrompt query : String) : LoopResult :=
  loopAux ctx baseAgentMaxIterations [systemMsg sysPrompt, userMsg query] 0 0

/-! ## The vector index: `VectorStore`

The Chroma collection is modelled as a list of stored vectors; the external
embedding engine and the distance function of the index are oracles.
-/

/-- Embedding vectors are opaque payloads to the store logic. -/
abbrev Embedding := List Int

structure ChunkMeta where
  page_number : Nat
  source_file : String
  chunk_index : Nat
deriving DecidableEq, Repr

/-- A vector persisted in the collection. -/
structure StoredVec where
  id : String
  embedding : Embedding
  document : String
  meta : ChunkMeta
deriving DecidableEq, Repr

abbrev Collection := List StoredVec

/-- `TextChunk` from `src/pdf/extractor.py`. -/
structure TextChunk where
  text : String
  page_number : Nat
  chunk_index : Nat
  source_file : String
deriving DecidableEq, Repr

/-- The id `f"{chunk.source_file}_{chunk.chunk_index}"`. -/
def chunkId (c : TextChunk) : String :=
  c.source_file ++ "_" ++ toString c.chunk_index

def vecOfChunk (c : TextChunk) (e : Embedding) : StoredVec :=
  { id := chunkId c, embedding := e, document := c.text,
    meta := { page_number := c.page_number, source_file := c.source_file,
              chunk_index := c.chunk_index } }

/-- `VectorStore.add_chunks`: embeddings for all chunks are computed by one
`embed_texts` call before `collection.add` is issued; a raised embedding
error is the `Except.error` case and no records are produced. -/
def addChunks (embedMany : List String → Except String (List Embedding))
    (col : Collection) (chunks : List TextChunk) : Except String Collection :=
  if chunks.isEmpty then .ok col
  else
    match embedMany (chunks.map (·.text)) with
    | .error e => .error e
    | .ok embs => .ok (col ++ (chunks.zip embs).map (fun ce => vecOfChunk ce.1 ce.2))

/-- The persistent collection after an `add_chunks` call whose exceptions
propagate to the caller: on an error the collection is whatever it was. -/
def addChunksRun (embedMany : List String → Except String (List Embedding))
    (col : Collection) (chunks : List TextChunk) : Collection :=
  match addChunks embedMany col chunks with
  | .ok c => c
  | .error _ => col

/-- `k = top_k or self.top_k`: Python `or` takes the default when the
argument is falsy, i.e. `None` or `0`. -/
def pyOrK (topk : Option Int) (dflt : Int) : Int :=
  match topk with
  | none => dflt
  | some t => if t = 0 then dflt else t

/-- The index store's `collection.query` primitive: the `k` stored vectors
closest to the query embedding under the distance `dist`. -/
def queryCollection (dist : Embedding → Embedding → Int) (col : Collection)
    (qe : Embedding) (k : Nat) : List StoredVec :=
  (col.insertionSort (fun a b => dist qe a.embedding ≤ dist qe b.embedding)).take k

structure SearchResult where
  text : String
  meta : ChunkMeta
  distance : Int
deriving DecidableEq, Repr

/-- `VectorStore.search(query, top_k)`. -/
def vsSearch (embedOne : String → Embedding) (dist : Embedding → Embedding → Int)
    (defaultTopK : Int) (col : Collection) (query : String) (topk : Option Int) :
    List SearchResult :=
  let k := pyOrK topk defaultTopK
  let qe := embedOne query
  (queryCollection dist col qe k.toNat).map (fun r =>
    { text := r.document, meta := r.meta, distance := dist qe r.embedding })

/-- `VectorStore.delete_document(source_file)`:
`collection.delete(where=(source_file == f))`. -/
def deleteDocument (col : Collection) (sourceFile : String) : Collection :=
  col.filter (fun r => r.meta.source_file ≠ sourceFile)

/-- `VectorStore.list_documents()`: the distinct `source_file` values. -/
def listDocuments (col : Collection) : List String :=
  (col.map (fun r => r.meta.source_file)).dedup

/-! ## The embedding gateway: `EmbeddingEngine.embed_texts`

The external service call `client.embeddings.create` is the oracle `create`;
`embedTexts` returns the embeddings together with the list of requests
issued to the service.
-/

def BATCH_SIZE : Nat := 50

/-- The `for i in range(0, total, BATCH_SIZE)` loop of `embed_texts`. -/
def batchLoop (create : List String → List Embedding) (texts : List String) :
    List Embedding × List (List String) :=
  if texts.isEmpty then ([], [])
  else
    let batch := texts.take BATCH_SIZE
    let rest := batchLoop create (texts.drop BATCH_SIZE)
    (create batch ++ rest.1, batch :: rest.2)
termination_by texts.length
decreasing_by
  simp only [List.length_drop]
  cases texts with
  | nil => simp_all
  | cons a l => simp [BATCH_SIZE]; omega

/-- `EmbeddingEngine.embed_texts(texts)`: empty input returns immediately;
at most `BATCH_SIZE` texts go in a single request; otherwise the batch loop
runs.  The second component is the list of service requests issued. -/
def embedTexts (create : List String → List Embedding) (texts : List String) :
    List Embedding × List (List String) :=
  if texts.isEmpty then ([], [])
  else if texts.length ≤ BATCH_SIZE then (create texts, [texts])
  else batchLoop create texts

/-! ## The answer generator: `RAGPipeline.query` -/

/-- The sentinel returned when retrieval yields nothing. -/
def ragSentinel : String := "No relevant documents found to answer your question."

/-- Python rendering of a possibly-null completion content in an f-string. -/
def pyOptStr (o : Option String) : String :=
  match o with
  | none => "None"
  | some s => s

/-- One part of the context block:
`f"[Source {i}: {source}, Page {page}]\n{text}"`. -/
def contextPart (i : Nat) (r : SearchResult) : String :=
  "[Source " ++ toString i ++ ": " ++ r.meta.source_file ++ ", Page " ++
    toString r.meta.page_number ++ "]\n" ++ r.text

/-- `RAGPipeline._build_context`. -/
def buildContext (results : List SearchResult) : String :=
  String.intercalate "\n\n" (results.enum.map (fun p => contextPart (p.1 + 1) p.2))

/-- The deduplicated, order-preserving source list of
`RAGPipeline._generate_response`. -/
def collectSources (results : List SearchResult) : List String :=
  results.foldl
    (fun acc r =>
      let s := r.meta.source_file ++ " (Page " ++ toString r.meta.page_number ++ ")"
      if s ∈ acc then acc else acc ++ [s])
    []

/-- `RAGPipeline._generate_response`: one completion request, then the answer
with the appended source list.  The second component counts completion
requests. -/
def buildUserPrompt (question context : String) : String :=
  "Context from documents:\n" ++ context ++ "\n\nQuestion: " ++ question ++
    "\n\nProvide a clear, accurate answer based on the context above."

def generateResponse (complete : String → Option String)
    (question context : String) (results : List SearchResult) : String × Nat :=
  let answer := complete (buildUserPrompt question context)
  (pyOptStr answer ++ "\n\n**Sources:** " ++ String.intercalate ", " (collectSources results), 1)

/-- `RAGPipeline.query(question, top_k)`: search, sentinel on empty results,
otherwise build the context and generate.  The second component counts
completion requests issued. -/
def ragQuery (search : String → Option Int → List SearchResult)
    (complete : String → Option String)
    (question : String) (topk : Option Int) : String × Nat :=
  let results := search question topk
  if results.isEmpty then (ragSentinel, 0)
  else generateResponse complete question (buildContext results) results

end Colate

/-! # Lemmas -/

namespace Colate

/-- If the advance `end - overlap` maps the cursor back to itself while the
loop condition still holds, the `while` loop of `_split_text` never
terminates: no amount of fuel completes it. -/
lemma splitLoop_stuck (cs ov : Nat) (text : List Char) (start : Int)
    (hfix : splitStepEnd cs text start - (ov : Int) = start)
    (hlt : start < (text.length : Int)) :
    ∀ fuel, splitLoop cs ov text fuel start = none := by
  intro fuel
  induction fuel with
  | zero => simp [splitLoop, hlt]
  | succ n ih => simp [splitLoop, hlt, hfix, ih]

lemma pyNormIdx_le (a : Int) (n : Nat) : pyNormIdx a n ≤ n := by
  simp only [pyNormIdx, Nat.min_def]
  split_ifs <;> omega

/-- Shifting a slice index left by `ov` commutes with normalisation, provided
the normalised values leave room for `ov` on both sides. -/
lemma pyNormIdx_shift (n ov : Nat) (e1 : Int)
    (hE : ov ≤ pyNormIdx e1 n)
    (hS : pyNormIdx (e1 - (ov : Int)) n + ov ≤ n)
    (hpos : 0 < ov) :
    pyNormIdx (e1 - (ov : Int)) n = pyNormIdx e1 n - ov := by
  simp only [pyNormIdx, Nat.min_def] at hE hS ⊢
  split_ifs at hE hS ⊢ <;> omega

lemma pySlice_length (xs : List Char) (a b : Int) :
    (pySlice xs a b).length = pyNormIdx b xs.length - pyNormIdx a xs.length := by
  simp only [pySlice, List.length_drop, List.length_take]
  rw [Nat.min_eq_left (pyNormIdx_le _ _)]

/-- The slice starting at `e1 - ov` shares its first `ov` characters with the
last `ov` characters of a slice ending at `e1`, whenever both slices are at
least `ov` long. -/
lemma pySlice_shared (text : List Char) (ov : Nat) (s1 e1 e2 : Int)
    (h1 : ov ≤ (pySlice text s1 e1).length)
    (h2 : ov ≤ (pySlice text (e1 - (ov : Int)) e2).length) :
    (pySlice text s1 e1).drop ((pySlice text s1 e1).length - ov) =
      (pySlice text (e1 - (ov : Int)) e2).take ov := by
  rcases Nat.eq_zero_or_pos ov with h0 | hpos
  · subst h0
    simp
  · have hE1n : pyNormIdx e1 text.length ≤ text.length := pyNormIdx_le _ _
    have hE2n : pyNormIdx e2 text.length ≤ text.length := pyNormIdx_le _ _
    have hl1 := pySlice_length text s1 e1
    have hl2 := pySlice_length text (e1 - (ov : Int)) e2
    rw [hl1] at h1
    rw [hl2] at h2
    have hshift : pyNormIdx (e1 - (ov : Int)) text.length = pyNormIdx e1 text.length - ov :=
      pyNormIdx_shift text.length ov e1 (by omega) (by omega) hpos
    rw [hl1]
    simp only [pySlice]
    set n := text.length with hn
    set S1 := pyNormIdx s1 n with hS1
    set E1 := pyNormIdx e1 n with hE1
    set S2 := pyNormIdx (e1 - (ov : Int)) n with hS2
    set E2 := pyNormIdx e2 n with hE2
    have hovE1 : ov ≤ E1 := by omega
    calc ((text.take E1).drop S1).drop (E1 - S1 - ov)
        = (text.take E1).drop (E1 - ov) := by rw [List.drop_drop]; congr 1; omega
      _ = (text.drop (E1 - ov)).take (E1 - (E1 - ov)) := by rw [List.drop_take]
      _ = (text.drop (E1 - ov)).take ov := by congr 1; omega
      _ = (text.drop S2).take ov := by rw [hshift]
      _ = (text.drop S2).take (min ov (E2 - S2)) := by rw [Nat.min_eq_left h2]
      _ = ((text.drop S2).take (E2 - S2)).take ov := by rw [List.take_take]
      _ = ((text.take E2).drop S2).take ov := by rw [List.drop_take]

/-- Every trace the split loop produces starts at the given cursor, and
consecutive boundary pairs are linked by the advance `start' = end - overlap`. -/
lemma splitLoop_trace (cs ov : Nat) (text : List Char) :
    ∀ fuel (start : Int) (tr : List (Int × Int)),
      splitLoop cs ov text fuel start = some tr →
      (∀ p ∈ tr.head?, p.1 = start) ∧
        tr.Chain' (fun p q => q.1 = p.2 - (ov : Int)) := by
  intro fuel
  induction fuel with
  | zero =>
    intro start tr h
    simp only [splitLoop] at h
    split at h
    · exact absurd h (by simp)
    · simp only [Option.some.injEq] at h
      subst h
      exact ⟨by simp, by simp⟩
  | succ n ih =>
    intro start tr h
    simp only [splitLoop] at h
    split at h
    · rw [Option.map_eq_some'] at h
      obtain ⟨rest, hrest, hcons⟩ := h
      subst hcons
      obtain ⟨hhead, hchain⟩ := ih _ _ hrest
      refine ⟨?_, ?_⟩
      · intro p hp
        simp only [List.head?_cons, Option.mem_def, Option.some.injEq] at hp
        subst hp
        rfl
      · rw [List.chain'_cons']
        exact ⟨fun q hq => hhead q hq, hchain⟩
    · simp only [Option.some.injEq] at h
      subst h
      exact ⟨by simp, by simp⟩

end Colate

open Colate

/-- Claim C1 (refuted by the code): with `chunk_size = 5 > 0` and
`0 ≤ overlap = 2 < 5`, on the input `"a bbbbbbbbbb"` the word-boundary case
sets `end = 2`, so the advance `end - overlap` returns the cursor to `0`
instead of strictly past it, and the split loop never terminates:
`splitText` fails to complete for every fuel bound. -/
theorem C1_split_nontermination :
    (Colate.splitStepEnd 5 (String.toList "a bbbbbbbbbb") 0 - 2 = 0) ∧
    ∀ fuel : Nat,
      Colate.splitText 5 2 fuel (String.toList "a bbbbbbbbbb") = none := by
  refine ⟨by decide, fun fuel => ?_⟩
  have h := Colate.splitLoop_stuck 5 2 (String.toList "a bbbbbbbbbb") 0
    (by decide) (by decide) fuel
  simp only [Colate.splitText]
  rw [if_neg (by decide), h]
  rfl

/-- Claim C5 as stated is refuted: on `"abcdefghij"` with `chunk_size = 5`,
`overlap = 2`, the split produces consecutive chunks `"ghij"` and `"j"`, and
the suffix `"ij"` of the first of length `overlap` does not occur anywhere in
the second, so it equals no prefix region of it. -/
theorem C5_counterexample :
    Colate.splitText 5 2 20 (String.toList "abcdefghij") =
      some [String.toList "abcde", String.toList "defgh",
            String.toList "ghij", String.toList "j"] ∧
    ¬ List.IsInfix
        ((String.toList "ghij").drop ((String.toList "ghij").length - 2))
        (String.toList "j") := by
  exact ⟨by decide, by decide⟩

/-- Claim C5 (amended): for every split with `chunk_size > 0` and
`0 ≤ overlap < chunk_size`, any two consecutive chunks that are both at least
`overlap` characters long share the boundary: the suffix of the first of
length `overlap` equals the prefix of the second of length `overlap`, because
the cursor advances to `end - overlap` after each segment. -/
theorem C5_overlap (cs ov fuel : Nat) (text : List Char)
    (chunks : List (List Char)) (c1 c2 : List Char) (i : Nat)
    (hsp : Colate.splitText cs ov fuel text = some chunks)
    (hc1 : chunks[i]? = some c1) (hc2 : chunks[i + 1]? = some c2)
    (h1 : ov ≤ c1.length) (h2 : ov ≤ c2.length) :
    c1.drop (c1.length - ov) = c2.take ov := by
  unfold Colate.splitText at hsp
  split at hsp
  · simp only [Option.some.injEq] at hsp
    subst hsp
    split at hc2 <;> simp at hc2
  · rw [Option.map_eq_some'] at hsp
    obtain ⟨tr, htr, hmap⟩ := hsp
    subst hmap
    rw [List.getElem?_map, Option.map_eq_some'] at hc1 hc2
    obtain ⟨p, hp, hc1e⟩ := hc1
    obtain ⟨q, hq, hc2e⟩ := hc2
    subst hc1e
    subst hc2e
    have hchain := (Colate.splitLoop_trace cs ov text fuel 0 tr htr).2
    rw [List.chain'_iff_get] at hchain
    obtain ⟨hqlt, hqget⟩ := List.getElem?_eq_some.mp hq
    obtain ⟨hplt, hpget⟩ := List.getElem?_eq_some.mp hp
    have hrel := hchain i (by omega)
    simp only [List.get_eq_getElem] at hrel
    rw [hpget, hqget] at hrel
    have hq1 : q.1 = p.2 - (ov : Int) := hrel
    rw [hq1] at h2 ⊢
    exact Colate.pySlice_shared text ov p.1 p.2 q.2 h1 h2

/-- Witness for C5_overlap: the first two chunks of the split of
`"abcdefghij"` with `chunk_size = 5`, `overlap = 2` share `"de"`. -/
theorem C5_overlap_witness :
    (String.toList "abcde").drop ((String.toList "abcde").length - 2) =
      (String.toList "defgh").take 2 :=
  C5_overlap 5 2 20 (String.toList "abcdefghij")
    [String.toList "abcde", String.toList "defgh",
     String.toList "ghij", String.toList "j"]
    (String.toList "abcde") (String.toList "defgh") 0
    (by decide) (by decide) (by decide) (by decide) (by decide)

/-- When every arguments string parses, dispatching a tool-call list appends
one tool message per call and performs exactly one dispatch per call. -/
lemma dispatchCalls_ok (ctx : AgentCtx) (hparse : ∀ s, (ctx.parse s).isSome) :
    ∀ (tcs : List ToolCall) (ms : List Message),
      ∃ ms2, dispatchCalls ctx tcs ms = (.ok ms2, tcs.length) := by
  intro tcs
  induction tcs with
  | nil => intro ms; exact ⟨ms, rfl⟩
  | cons tc rest ih =>
    intro ms
    cases hp : ctx.parse tc.arguments with
    | none =>
      have hs := hparse tc.arguments
      rw [hp] at hs
      simp at hs
    | some args =>
      obtain ⟨ms2, h2⟩ := ih (ms ++ [toolMsg tc.id (ctx.callTool tc.name args)])
      exact ⟨ms2, by simp [dispatchCalls, hp, h2]⟩

/-- If every completion response requests a tool call, all arguments parse
and a client is attached, the loop consumes all its fuel, issuing one
completion request per iteration, and ends with the exhaustion sentinel. -/
lemma loopAux_exhausts (ctx : AgentCtx) (hclient : ctx.hasClient = true)
    (hcalls : ∀ ms, (ctx.complete ms).toolCalls ≠ [])
    (hparse : ∀ s, (ctx.parse s).isSome) :
    ∀ (fuel : Nat) (ms : List Message) (req disp : Nat),
      (loopAux ctx fuel ms req disp).result = .ok (some "Max iterations reached") ∧
        (loopAux ctx fuel ms req disp).requests = req + fuel := by
  intro fuel
  induction fuel with
  | zero => intro ms req disp; exact ⟨rfl, rfl⟩
  | succ n ih =>
    intro ms req disp
    have hne := hcalls ms
    have hguard : ((!(ctx.complete ms).toolCalls.isEmpty) && ctx.hasClient) = true := by
      simp [hclient, hne]
    obtain ⟨ms2, hd⟩ := dispatchCalls_ok ctx hparse (ctx.complete ms).toolCalls
      (ms ++ [assistantMsg (ctx.complete ms)])
    simp only [loopAux]
    rw [if_pos hguard, hd]
    have h := ih ms2 (req + 1) (disp + (ctx.complete ms).toolCalls.length)
    exact ⟨h.1, by rw [h.2]; omega⟩

/-- Claim C3: when every completion response contains at least one tool call
(and arguments parse, with a client attached), `process_async` issues exactly
`max_iterations = 10` completion requests and then returns the
`"Max iterations reached"` sentinel as a normal value, not an error. -/
theorem C3_exhaustion (ctx : AgentCtx) (sysPrompt query : String)
    (hclient : ctx.hasClient = true)
    (hcalls : ∀ ms, (ctx.complete ms).toolCalls ≠ [])
    (hparse : ∀ s, (ctx.parse s).isSome) :
    (processAsync ctx sysPrompt query).result =
        .ok (some "Max iterations reached") ∧
      (processAsync ctx sysPrompt query).requests = 10 := by
  have h := loopAux_exhausts ctx hclient hcalls hparse baseAgentMaxIterations
    [systemMsg sysPrompt, userMsg query] 0 0
  rw [processAsync]
  exact ⟨h.1, by rw [h.2]; rfl⟩

/-- A completion stub that always requests one tool call with well-formed
arguments. -/
def ctxAllCalls : AgentCtx where
  complete := fun _ =>
    { content := none,
      toolCalls := [{ id := "1", name := "search_documents", arguments := "null" }] }
  parse := fun _ => some []
  callTool := fun _ _ => "ok"
  hasClient := true

/-- Witness for C3_exhaustion on a concrete always-tool-calling stub. -/
theorem C3_exhaustion_witness :
    (processAsync ctxAllCalls "s" "q").result =
        .ok (some "Max iterations reached") ∧
      (processAsync ctxAllCalls "s" "q").requests = 10 :=
  C3_exhaustion ctxAllCalls "s" "q" rfl
    (fun ms => by simp [ctxAllCalls]) (fun s => by simp [ctxAllCalls])

/-- Claim C9: with no tool provider attached, `process_async` returns the
first completion response's content unchanged (which may be null), after
exactly one completion request and zero tool dispatches, even when that
response contains tool calls. -/
theorem C9_no_client (ctx : AgentCtx) (sysPrompt query : String)
    (hclient : ctx.hasClient = false) :
    processAsync ctx sysPrompt query =
      ⟨.ok ((ctx.complete [systemMsg sysPrompt, userMsg query]).content), 1, 0⟩ := by
  rw [processAsync, show baseAgentMaxIterations = 9 + 1 from rfl]
  simp [loopAux, hclient]

/-- A stub with tool calls in the response but no client attached. -/
def ctxNoClient : AgentCtx where
  complete := fun _ =>
    { content := none,
      toolCalls := [{ id := "1", name := "search_documents", arguments := "null" }] }
  parse := fun _ => some []
  callTool := fun _ _ => "ok"
  hasClient := false

/-- Witness for C9_no_client: the returned content is null here. -/
theorem C9_no_client_witness :
    processAsync ctxNoClient "s" "q" = ⟨.ok none, 1, 0⟩ :=
  C9_no_client ctxNoClient "s" "q" rfl

/-- A completion stub whose tool call carries arguments that do not parse
as JSON. -/
def ctxBadArgs : AgentCtx where
  complete := fun _ =>
    { content := some "x",
      toolCalls := [{ id := "1", name := "search_documents", arguments := "not json" }] }
  parse := fun _ => none
  callTool := fun _ _ => ""
  hasClient := true

/-- Claim C2 is refuted: on a tool call whose arguments string is not
parseable as JSON, `process_async` does not return normally with a tool-role
error message — the `json.loads` failure escapes the loop invocation. -/
theorem C2_counterexample :
    (processAsync ctxBadArgs "s" "q").result =
      .error (.jsonDecode "not json") := by
  rfl

/-- Claim C2 (amended): a tool call whose arguments string fails to parse as
JSON makes the parse failure propagate out of the loop invocation as an
exception; no tool-role error message is appended and the loop does not
continue (stated for the first tool call of the first response). -/
theorem C2_raises (ctx : AgentCtx) (sysPrompt query : String)
    (tc : ToolCall) (rest : List ToolCall)
    (hclient : ctx.hasClient = true)
    (htc : (ctx.complete [systemMsg sysPrompt, userMsg query]).toolCalls = tc :: rest)
    (hbad : ctx.parse tc.arguments = none) :
    (processAsync ctx sysPrompt query).result =
      .error (.jsonDecode tc.arguments) := by
  rw [processAsync, show baseAgentMaxIterations = 9 + 1 from rfl]
  simp [loopAux, htc, hclient, dispatchCalls, hbad]

/-- Witness for C2_raises on the concrete malformed-arguments stub. -/
theorem C2_raises_witness :
    (processAsync ctxBadArgs "sys" "query").result =
      .error (.jsonDecode "not json") :=
  C2_raises ctxBadArgs "sys" "query"
    { id := "1", name := "search_documents", arguments := "not json" } []
    rfl rfl rfl

/-- Results of the index query primitive are stored vectors of the
collection. -/
lemma queryCollection_subset (dist : Embedding → Embedding → Int)
    (col : Collection) (qe : Embedding) (k : Nat) :
    ∀ v ∈ queryCollection dist col qe k, v ∈ col := by
  intro v hv
  have h1 : v ∈ col.insertionSort
      (fun a b => dist qe a.embedding ≤ dist qe b.embedding) :=
    List.take_subset _ _ hv
  exact (List.perm_insertionSort _ col).mem_iff.mp h1

/-- Claim C4: after `delete_document(f)`, `f` is gone from
`list_documents()`, no search result carries `source_file = f`, the
remaining vectors are exactly those of other source files (unchanged), and
the deletion is a no-op — not an error — when nothing matches. -/
theorem C4_delete (col : Collection) (f : String)
    (embedOne : String → Embedding) (dist : Embedding → Embedding → Int)
    (dflt : Int) (q : String) (topk : Option Int) :
    f ∉ listDocuments (deleteDocument col f) ∧
    (∀ r ∈ vsSearch embedOne dist dflt (deleteDocument col f) q topk,
        r.meta.source_file ≠ f) ∧
    (∀ v : StoredVec, v ∈ deleteDocument col f ↔
        v ∈ col ∧ v.meta.source_file ≠ f) ∧
    ((∀ v ∈ col, v.meta.source_file ≠ f) → deleteDocument col f = col) := by
  have hmem : ∀ v : StoredVec, v ∈ deleteDocument col f ↔
      v ∈ col ∧ v.meta.source_file ≠ f := by
    intro v
    simp [deleteDocument, List.mem_filter]
  refine ⟨?_, ?_, hmem, ?_⟩
  · simp only [listDocuments, List.mem_dedup, List.mem_map]
    rintro ⟨v, hv, hvf⟩
    exact ((hmem v).mp hv).2 hvf
  · intro r hr
    simp only [vsSearch, List.mem_map] at hr
    obtain ⟨v, hv, hrv⟩ := hr
    have hvcol := queryCollection_subset _ _ _ _ v hv
    have := ((hmem v).mp hvcol).2
    rw [← hrv]
    exact this
  · intro hnone
    simp only [deleteDocument]
    rw [List.filter_eq_self]
    intro v hv
    simpa using hnone v hv

/-- Witness for C4_delete on a concrete two-document collection. -/
theorem C4_delete_witness :
    "a.pdf" ∉ listDocuments (deleteDocument
        [⟨"a.pdf_0", [1], "x", ⟨1, "a.pdf", 0⟩⟩,
         ⟨"b.pdf_0", [2], "y", ⟨1, "b.pdf", 0⟩⟩] "a.pdf") ∧
    (∀ r ∈ vsSearch (fun _ => [0]) (fun _ _ => 0) 5 (deleteDocument
        [⟨"a.pdf_0", [1], "x", ⟨1, "a.pdf", 0⟩⟩,
         ⟨"b.pdf_0", [2], "y", ⟨1, "b.pdf", 0⟩⟩] "a.pdf") "q" none,
        r.meta.source_file ≠ "a.pdf") ∧
    (∀ v : StoredVec, v ∈ deleteDocument
        [⟨"a.pdf_0", [1], "x", ⟨1, "a.pdf", 0⟩⟩,
         ⟨"b.pdf_0", [2], "y", ⟨1, "b.pdf", 0⟩⟩] "a.pdf" ↔
        v ∈ [⟨"a.pdf_0", [1], "x", ⟨1, "a.pdf", 0⟩⟩,
             ⟨"b.pdf_0", [2], "y", ⟨1, "b.pdf", 0⟩⟩] ∧
          v.meta.source_file ≠ "a.pdf") ∧
    ((∀ v ∈ ([⟨"a.pdf_0", [1], "x", ⟨1, "a.pdf", 0⟩⟩,
              ⟨"b.pdf_0", [2], "y", ⟨1, "b.pdf", 0⟩⟩] : Collection),
        v.meta.source_file ≠ "a.pdf") →
      deleteDocument
        [⟨"a.pdf_0", [1], "x", ⟨1, "a.pdf", 0⟩⟩,
         ⟨"b.pdf_0", [2], "y", ⟨1, "b.pdf", 0⟩⟩] "a.pdf" =
        [⟨"a.pdf_0", [1], "x", ⟨1, "a.pdf", 0⟩⟩,
         ⟨"b.pdf_0", [2], "y", ⟨1, "b.pdf", 0⟩⟩]) :=
  C4_delete
    [⟨"a.pdf_0", [1], "x", ⟨1, "a.pdf", 0⟩⟩,
     ⟨"b.pdf_0", [2], "y", ⟨1, "b.pdf", 0⟩⟩] "a.pdf"
    (fun _ => [0]) (fun _ _ => 0) 5 "q" none

/-- Claim C10: `search` with `top_k = 0` behaves exactly like `search` with
`top_k` omitted, because `top_k or self.top_k` tests truthiness: `0` is
falsy, so the configured default is used silently. -/
theorem C10_topk_zero (embedOne : String → Embedding)
    (dist : Embedding → Embedding → Int) (dflt : Int)
    (col : Collection) (q : String) :
    vsSearch embedOne dist dflt col q (some 0) =
        vsSearch embedOne dist dflt col q none ∧
      pyOrK (some 0) dflt = dflt := by
  constructor
  · simp [vsSearch, pyOrK]
  · simp [pyOrK]

/-- Claim C6: `embed_texts` on the empty input returns the empty sequence
and issues no request to the external embedding service. -/
theorem C6_empty_input (create : List String → List Embedding) :
    embedTexts create [] = ([], []) := rfl

/-- Claim C7: when retrieval returns no results, `RAGPipeline.query` returns
the fixed sentinel message and issues no completion request. -/
theorem C7_no_results (search : String → Option Int → List SearchResult)
    (complete : String → Option String) (question : String) (topk : Option Int)
    (h : search question topk = []) :
    ragQuery search complete question topk = (ragSentinel, 0) := by
  simp [ragQuery, h]

/-- Witness for C7_no_results: searching the empty index yields no results
(not an error), so the query returns the sentinel with zero completions. -/
theorem C7_no_results_witness :
    ragQuery (vsSearch (fun _ => [0]) (fun _ _ => 0) 5 [])
        (fun _ => some "an answer") "q" none =
      (ragSentinel, 0) :=
  C7_no_results (vsSearch (fun _ => [0]) (fun _ _ => 0) 5 [])
    (fun _ => some "an answer") "q" none rfl

/-- Claim C8: `add_chunks` computes all embeddings in one call before any
write; if the embedding call raises, the persistent collection is unchanged
(no partial write). -/
theorem C8_no_partial_write
    (embedMany : List String → Except String (List Embedding))
    (col : Collection) (chunks : List TextChunk) (e : String)
    (hfail : embedMany (chunks.map (fun c => c.text)) = .error e) :
    addChunksRun embedMany col chunks = col := by
  unfold addChunksRun addChunks
  by_cases hc : chunks.isEmpty
  · simp [hc]
  · simp [hc, hfail]

/-- Witness for C8_no_partial_write with a failing embedding service. -/
theorem C8_no_partial_write_witness :
    addChunksRun (fun _ => .error "rate limit") []
      [{ text := "t", page_number := 1, chunk_index := 0, source_file := "a.pdf" }] =
      [] :=
  C8_no_partial_write (fun _ => .error "rate limit") []
    [{ text := "t", page_number := 1, chunk_index := 0, source_file := "a.pdf" }]
    "rate limit" rfl
